import Mathlib

/-!
Shallow embedding of the `zkcli-dockerized-node` module (`src/index.ts`),
a zksync-cli plugin managing a dockerized local L1/L2 node environment.

The embedding covers:
* the JSON-truthiness semantics used by `if (data.result)` in
  `waitForContractsDeployment`;
* the readiness-polling loop of `waitForContractsDeployment` as a step
  function `tick` on an explicit `PollState` (the JS promise settlement is
  modelled by an `Option Outcome` field that can only be set once, exactly
  like `resolve`/`reject` on a JS promise: the first settlement wins and
  later calls are no-ops), driven over a finite schedule of
  (probe outcome, isRunning outcome) pairs by `runPoll`;
* the JSON-RPC probe request constructed by the `fetch` call;
* `isRunning` over container status snapshots;
* the versioned variant of the module (the second source file): the
  process-wide `latestVersion` memo of `getLatestVersion`, and the
  `install` sequence (resolve latest version, clone repo, compose up,
  wait for deployment, persist version via
  `setModuleConfig({...this.moduleConfig, version: latestVersion})`).
-/

/-- JSON values, as produced by `response.json()`. -/
inductive Json where
  | null
  | bool (b : Bool)
  | num (n : Int)
  | str (s : String)
  | arr (elems : List Json)
  | obj (fields : List (String × Json))

/-- JavaScript truthiness of a JSON value: `null`, `false`, `0` and `""`
are falsy; every other JSON value (any array or object included) is truthy. -/
def jsTruthy : Json → Bool
  | Json.null => false
  | Json.bool b => b
  | Json.num n => n != 0
  | Json.str s => s != ""
  | Json.arr _ => true
  | Json.obj _ => true

/-- Property access `data.key` on a parsed JSON value: yields the field of an
object when present, and `undefined` (here `none`) otherwise — in particular
on non-objects and on objects lacking the key. -/
def getField : Json → String → Option Json
  | Json.obj fields, k => (fields.find? (fun p => p.1 == k)).map (fun p => p.2)
  | _, _ => none

/-- Truthiness of `data.result` as tested by `if (data.result)`:
an absent field (`undefined`) is falsy. -/
def resultTruthy (body : Json) : Bool :=
  match getField body "result" with
  | none => false
  | some v => jsTruthy v

/-- Outcome of one `fetch` probe as observed inside the interval callback.
`transportError` covers both a rejected `fetch` and a `response.json()` that
fails to parse (both land in the same `catch` block); `http ok body` is a
response whose `.ok` flag is `ok` — when `ok = false` the body is never
parsed by the code, so its value is irrelevant there. -/
inductive ProbeResult where
  | transportError
  | http (ok : Bool) (body : Json)

/-- A probe is classified successful exactly when the HTTP response is ok and
its parsed body has a truthy `result` field (the `response.ok` +
`data.result` branch of the code). -/
def probeSuccess : ProbeResult → Bool
  | ProbeResult.http true body => resultTruthy body
  | _ => false

/-- The three "not ready yet" probe shapes named by the spec: transport
failure, non-success HTTP status, or a response with absent/falsy `result`. -/
def notReady (p : ProbeResult) : Prop :=
  p = ProbeResult.transportError ∨
  (∃ body, p = ProbeResult.http false body) ∨
  (∃ body, p = ProbeResult.http true body ∧ resultTruthy body = false)

/-- Terminal outcome of the polling promise. -/
inductive Outcome where
  | success
  | failure (msg : String)
deriving DecidableEq

/-- The rejection reason used by the code when the node stops running. -/
def stoppedMessage : String := "Dockerized Node stopped running. Installation failed."

/-- State of one in-flight `waitForContractsDeployment` invocation:
the `elapsedTime` accumulator, the promise settlement (`none` while pending),
and whether `clearInterval` has been called. -/
structure PollState where
  elapsedTime : Nat
  settled : Option Outcome
  intervalCleared : Bool
deriving DecidableEq

/-- JS promise settlement: `resolve`/`reject` on an already settled promise
is a no-op, so the first settlement wins. -/
def settle (s : Option Outcome) (o : Outcome) : Option Outcome :=
  match s with
  | none => some o
  | some v => some v

/-- The fixed retry interval of the polling loop (`retryTime = 1000`). -/
def retryTime : Nat := 1000

/-- One interval callback of `waitForContractsDeployment`, given the probe
outcome and the result of `this.isRunning()` on this tick. Mirrors the
source order: bump `elapsedTime`; classify the probe (on `response.ok` with
truthy `data.result`, `clearInterval` and `resolve`; every other shape only
logs/updates the spinner); then unconditionally check `isRunning` and, when
false, `clearInterval` and `reject` — which is a no-op if the promise
already resolved earlier in the same callback. -/
def tick (probe : ProbeResult) (envRunning : Bool) (s : PollState) : PollState :=
  let s1 : PollState := { s with elapsedTime := s.elapsedTime + retryTime }
  let s2 : PollState :=
    match probe with
    | ProbeResult.transportError => s1
    | ProbeResult.http ok body =>
      if ok then
        if resultTruthy body then
          { s1 with intervalCleared := true, settled := settle s1.settled Outcome.success }
        else s1
      else s1
  if envRunning then s2
  else { s2 with intervalCleared := true,
                 settled := settle s2.settled (Outcome.failure stoppedMessage) }

/-- Run the interval over a finite schedule of (probe, isRunning) pairs.
Once `clearInterval` has been called no further callbacks fire. -/
def runPoll : List (ProbeResult × Bool) → PollState → PollState
  | [], s => s
  | (p, e) :: rest, s =>
    if s.intervalCleared then s
    else runPoll rest (tick p e s)

/-- Initial state of a fresh `waitForContractsDeployment` call. -/
def initState : PollState :=
  { elapsedTime := 0, settled := none, intervalCleared := false }

/-- `waitForContractsDeployment` observed over a schedule of tick inputs. -/
def waitForContractsDeployment (ticks : List (ProbeResult × Bool)) : PollState :=
  runPoll ticks initState

/-- The JSON-RPC request issued by each probe (`fetch` call). -/
structure RpcRequest where
  url : String
  httpMethod : String
  contentType : String
  jsonrpc : String
  rpcMethod : String
  params : List Json
  id : Nat

/-- The probe request built by `waitForContractsDeployment` for a given L2
RPC URL: a POST to `rpcUrl + "/zks_getMainContract"` with a JSON body
`{jsonrpc: "2.0", method: "zks_getMainContract", params: [], id: 1}`. -/
def probeRequest (rpcUrl : String) : RpcRequest :=
  { url := rpcUrl ++ "/zks_getMainContract"
    httpMethod := "POST"
    contentType := "application/json"
    jsonrpc := "2.0"
    rpcMethod := "zks_getMainContract"
    params := []
    id := 1 }

/-- The L2 RPC URL of `nodeInfo` in `src/index.ts`. -/
def l2RpcUrl : String := "http://localhost:3050"

/-- One entry of the container status snapshot returned by
`docker.compose.status`. -/
structure ServiceStatus where
  serviceName : String
  isRunning : Bool
deriving DecidableEq

/-- `isRunning`: `(await docker.compose.status(...)).some(({isRunning}) => isRunning)`. -/
def isRunning (snapshot : List ServiceStatus) : Bool :=
  snapshot.any (fun s => s.isRunning)

/-!
The versioned variant of the module. `latestVersion` is a module-level
mutable variable (process-wide, shared across class instances); the
persisted `moduleConfig` is a JS object (modelled as an ordered field list)
holding an optional `version` string among possibly other fields. We thread
both through an explicit `ProcState`, together with a count of how many
times the external resolver `git.getLatestCommitHash` has actually been
queried (instrumentation only: it influences no control flow).
-/

/-- Process-wide state threaded through `getLatestVersion` and `install`. -/
structure ProcState where
  latestVersion : Option String
  queries : Nat
  moduleConfig : List (String × Json)

/-- A fresh process: `latestVersion` undefined, no queries yet, and an
arbitrary starting `moduleConfig` (empty here). -/
def initProcState : ProcState :=
  { latestVersion := none, queries := 0, moduleConfig := [] }

/-- JS truthiness of the module-level `latestVersion` variable:
`undefined` and `""` are falsy. This is the guard `if (!latestVersion)`. -/
def strTruthy : Option String → Bool
  | none => false
  | some s => s != ""

/-- `getLatestVersion`: if the memo is falsy, query the external resolver
(whose outcome on the k-th query is `resolver k`) and store the result;
then return the memo. A resolver failure propagates (the `await` rethrows)
and leaves the memo unassigned. -/
def getLatestVersion (resolver : Nat → Except String String) (s : ProcState) :
    Except String String × ProcState :=
  if strTruthy s.latestVersion then
    (Except.ok (s.latestVersion.getD ""), s)
  else
    match resolver s.queries with
    | Except.ok v =>
        (Except.ok v, { s with latestVersion := some v, queries := s.queries + 1 })
    | Except.error e => (Except.error e, { s with queries := s.queries + 1 })

/-- Field lookup on a JS-object-as-field-list (`cfg.key`). -/
def lookupField (cfg : List (String × Json)) (k : String) : Option Json :=
  (cfg.find? (fun p => p.1 == k)).map (fun p => p.2)

/-- The object literal `{...this.moduleConfig, version: latestVersion}` of
`setModuleConfig`: JS spread-then-override keeps every field of the spread
object in place, overwriting the value at key `version` when present and
appending a `version` field otherwise. -/
def spreadSetVersion (cfg : List (String × Json)) (v : String) :
    List (String × Json) :=
  if cfg.any (fun p => p.1 == "version") then
    cfg.map (fun p => if p.1 == "version" then (p.1, Json.str v) else p)
  else cfg ++ [("version", Json.str v)]

/-- The stages of the `install` sequence, in source order. -/
inductive Stage where
  | resolveStage
  | cloneStage
  | upStage
  | pollStage
  | persistStage
deriving DecidableEq

/-- Outcomes of the external calls an `install` run can make:
the resolver behaviour, and the results of `git.cloneRepo`,
`docker.compose.up` and `waitForContractsDeployment` (each of which either
completes or throws/rejects with an error). -/
structure InstallEnv where
  resolver : Nat → Except String String
  cloneResult : Except String Unit
  upResult : Except String Unit
  pollResult : Except String Unit

/-- `install`: resolve the latest version, clone the repo, bring the compose
stack up, await contract deployment, then persist
`{...this.moduleConfig, version: latestVersion}`. Each `await` rethrows a
failure, aborting the rest of the sequence; the returned list records which
stages were attempted (in order). -/
def install (env : InstallEnv) (s : ProcState) :
    Except String Unit × ProcState × List Stage :=
  match getLatestVersion env.resolver s with
  | (Except.error e, s1) => (Except.error e, s1, [Stage.resolveStage])
  | (Except.ok latest, s1) =>
    match env.cloneResult with
    | Except.error e => (Except.error e, s1, [Stage.resolveStage, Stage.cloneStage])
    | Except.ok _ =>
      match env.upResult with
      | Except.error e =>
          (Except.error e, s1, [Stage.resolveStage, Stage.cloneStage, Stage.upStage])
      | Except.ok _ =>
        match env.pollResult with
        | Except.error e =>
            (Except.error e, s1,
              [Stage.resolveStage, Stage.cloneStage, Stage.upStage, Stage.pollStage])
        | Except.ok _ =>
            (Except.ok (),
              { s1 with moduleConfig := spreadSetVersion s1.moduleConfig latest },
              [Stage.resolveStage, Stage.cloneStage, Stage.upStage, Stage.pollStage,
               Stage.persistStage])

/-- A resolver that always succeeds with a fixed commit hash (test fixture). -/
def okResolver : Nat → Except String String := fun _ => Except.ok "deadbeef"

/-- An `install` environment in which every external call succeeds. -/
def envAllOk : InstallEnv :=
  { resolver := okResolver
    cloneResult := Except.ok ()
    upResult := Except.ok ()
    pollResult := Except.ok () }

/-- An `install` environment whose `git.cloneRepo` call fails. -/
def envCloneFail : InstallEnv :=
  { envAllOk with cloneResult := Except.error "fatal: unable to access repo" }

/-- An `install` environment whose readiness poll rejects. -/
def envPollFail : InstallEnv :=
  { envAllOk with pollResult := Except.error stoppedMessage }

/-- A process state whose persisted config already holds a non-version field. -/
def procWithOther : ProcState :=
  { latestVersion := none, queries := 0,
    moduleConfig := [("chainId", Json.num 270)] }

/-! ### Helper lemmas about the polling loop -/

/-- A "not ready" probe shape is exactly a non-successful probe. -/
theorem notReady_iff (p : ProbeResult) : notReady p ↔ probeSuccess p = false := by
  constructor
  · rintro (rfl | ⟨body, rfl⟩ | ⟨body, rfl, hb⟩) <;> simp [probeSuccess, *]
  · intro h
    cases p with
    | transportError => exact Or.inl rfl
    | http ok body =>
      cases ok with
      | false => exact Or.inr (Or.inl ⟨body, rfl⟩)
      | true => exact Or.inr (Or.inr ⟨body, rfl, by simpa [probeSuccess] using h⟩)

/-- Every tick advances `elapsedTime` by exactly one `retryTime`. -/
theorem tick_elapsed (p : ProbeResult) (e : Bool) (s : PollState) :
    (tick p e s).elapsedTime = s.elapsedTime + retryTime := by
  cases p with
  | transportError => cases e <;> simp [tick]
  | http ok body =>
    cases ok <;> cases e <;> simp [tick] <;>
      by_cases hb : resultTruthy body = true <;> simp [hb]

/-- A non-successful probe on a tick where the node is still running changes
nothing but the elapsed time. -/
theorem tick_quiet (p : ProbeResult) (s : PollState)
    (hp : probeSuccess p = false) :
    tick p true s = { s with elapsedTime := s.elapsedTime + retryTime } := by
  cases p with
  | transportError => simp [tick]
  | http ok body =>
    cases ok with
    | false => simp [tick]
    | true =>
      simp only [probeSuccess] at hp
      simp [tick, hp]

/-- A successful probe resolves the promise and clears the interval, on any
tick — even one where the node check then reports stopped, since the later
`reject` cannot unsettle an already resolved promise. -/
theorem tick_success (p : ProbeResult) (e : Bool) (s : PollState)
    (hs : s.settled = none) (hp : probeSuccess p = true) :
    (tick p e s).settled = some Outcome.success ∧
    (tick p e s).intervalCleared = true := by
  cases p with
  | transportError => simp [probeSuccess] at hp
  | http ok body =>
    cases ok with
    | false => simp [probeSuccess] at hp
    | true =>
      simp only [probeSuccess] at hp
      cases e <;> simp [tick, hp, settle, hs]

/-- On a tick with a non-successful probe where the node check reports
stopped, the promise is rejected with the stop message and the interval is
cleared. -/
theorem tick_stopFail (p : ProbeResult) (s : PollState)
    (hs : s.settled = none) (hp : probeSuccess p = false) :
    (tick p false s).settled = some (Outcome.failure stoppedMessage) ∧
    (tick p false s).intervalCleared = true := by
  cases p with
  | transportError => simp [tick, settle, hs]
  | http ok body =>
    cases ok with
    | false => simp [tick, settle, hs]
    | true =>
      simp only [probeSuccess] at hp
      simp [tick, hp, settle, hs]

/-- Once the interval is cleared, no further callbacks fire. -/
theorem runPoll_cleared (ticks : List (ProbeResult × Bool)) (s : PollState)
    (h : s.intervalCleared = true) : runPoll ticks s = s := by
  cases ticks with
  | nil => rfl
  | cons t rest =>
    obtain ⟨p, e⟩ := t
    simp [runPoll, h]

/-- Running a concatenated schedule is running the two parts in sequence. -/
theorem runPoll_append (a b : List (ProbeResult × Bool)) (s : PollState) :
    runPoll (a ++ b) s = runPoll b (runPoll a s) := by
  induction a generalizing s with
  | nil => rfl
  | cons t rest ih =>
    obtain ⟨p, e⟩ := t
    by_cases h : s.intervalCleared = true
    · rw [runPoll_cleared _ _ h, runPoll_cleared _ _ h, runPoll_cleared _ _ h]
    · have h' : s.intervalCleared = false := by simpa using h
      simp only [List.cons_append, runPoll, h', if_false, Bool.false_eq_true]
      exact ih (tick p e s)

/-- A schedule of only quiet ticks (non-successful probe, node running)
leaves the poll pending and only accumulates elapsed time. -/
theorem runPoll_quiet (pre : List (ProbeResult × Bool)) (s : PollState)
    (hcl : s.intervalCleared = false)
    (hpre : ∀ pe ∈ pre, probeSuccess pe.1 = false ∧ pe.2 = true) :
    runPoll pre s = { s with elapsedTime := s.elapsedTime + retryTime * pre.length } := by
  induction pre generalizing s with
  | nil => rfl
  | cons t rest ih =>
    obtain ⟨p, e⟩ := t
    obtain ⟨hp, he⟩ := hpre (p, e) (List.mem_cons_self _ _)
    simp only at hp he
    subst he
    have hstep : runPoll ((p, true) :: rest) s = runPoll rest (tick p true s) := by
      simp [runPoll, hcl]
    rw [hstep, tick_quiet p s hp,
        ih { s with elapsedTime := s.elapsedTime + retryTime } hcl
          (fun pe hpe => hpre pe (List.mem_cons_of_mem _ hpe))]
    simp only [List.length_cons]
    congr 1
    ring

/-- One tick from a pending, uncleared state preserves the invariant
"interval cleared iff promise settled". -/
theorem tick_inv (p : ProbeResult) (e : Bool) (s : PollState)
    (hc : s.intervalCleared = false) (hs : s.settled = none) :
    ((tick p e s).intervalCleared = true ↔ (tick p e s).settled ≠ none) := by
  by_cases hp : probeSuccess p = true
  · obtain ⟨h1, h2⟩ := tick_success p e s hs hp
    simp [h1, h2]
  · have hp' : probeSuccess p = false := by simpa using hp
    cases e with
    | false =>
      obtain ⟨h1, h2⟩ := tick_stopFail p s hs hp'
      simp [h1, h2]
    | true =>
      rw [tick_quiet p s hp']
      simp [hc, hs]

/-- The invariant "interval cleared iff promise settled" is preserved by any
schedule. -/
theorem runPoll_inv (ticks : List (ProbeResult × Bool)) (s : PollState)
    (h : s.intervalCleared = true ↔ s.settled ≠ none) :
    ((runPoll ticks s).intervalCleared = true ↔ (runPoll ticks s).settled ≠ none) := by
  induction ticks generalizing s with
  | nil => exact h
  | cons t rest ih =>
    obtain ⟨p, e⟩ := t
    by_cases hc : s.intervalCleared = true
    · rw [runPoll_cleared _ _ hc]
      exact h
    · have hc' : s.intervalCleared = false := by simpa using hc
      have hs : s.settled = none := by
        by_contra hne
        exact hc (h.mpr hne)
      simp only [runPoll, hc', if_false, Bool.false_eq_true]
      exact ih (tick p e s) (tick_inv p e s hc' hs)

/-! ### Claim theorems -/

/-- C1: on every tick of `waitForContractsDeployment` (here: from a pending,
uncleared poll state, with the node still running), the probe response is
classified exactly one of two ways — it is one of the three "not ready"
shapes (transport failure, non-success HTTP status, absent/falsy `result`),
in which case the promise stays pending and polling continues, or its
`result` field is present and truthy, in which case the promise resolves
successfully and the interval is cleared. -/
theorem C1_probe_classification (p : ProbeResult) (s : PollState)
    (hs : s.settled = none) (hc : s.intervalCleared = false) :
    (notReady p ∨ probeSuccess p = true) ∧
    ¬(notReady p ∧ probeSuccess p = true) ∧
    (notReady p →
      (tick p true s).settled = none ∧ (tick p true s).intervalCleared = false) ∧
    (probeSuccess p = true →
      (tick p true s).settled = some Outcome.success ∧
      (tick p true s).intervalCleared = true) := by
  refine ⟨?_, ?_, ?_, ?_⟩
  · by_cases hp : probeSuccess p = true
    · exact Or.inr hp
    · exact Or.inl ((notReady_iff p).mpr (by simpa using hp))
  · rintro ⟨hnr, hp⟩
    rw [notReady_iff p] at hnr
    simp [hp] at hnr
  · intro hnr
    rw [tick_quiet p s ((notReady_iff p).mp hnr)]
    exact ⟨hs, hc⟩
  · intro hp
    exact tick_success p true s hs hp

/-- C1 witness: concrete instances — a truthy-result probe from the initial
state resolves; a transport error from the initial state leaves the poll
pending. -/
theorem C1_probe_classification_witness :
    (tick (ProbeResult.http true (Json.obj [("result", Json.str "0xabc")])) true
        initState).settled = some Outcome.success ∧
    (tick ProbeResult.transportError true initState).settled = none :=
  ⟨((C1_probe_classification
      (ProbeResult.http true (Json.obj [("result", Json.str "0xabc")]))
      initState rfl rfl).2.2.2 (by decide)).1,
   ((C1_probe_classification ProbeResult.transportError initState rfl rfl).2.2.1
      (Or.inl rfl)).1⟩

/-- C2 counterexample: on a tick where the probe returns a truthy `result`
but the environment-running check reports false, the invocation terminates
with SUCCESS, not with the stopped-unexpectedly failure — `resolve()` runs
before the `isRunning` check and a settled promise cannot be rejected. -/
theorem C2_stop_failure_counterexample :
    (waitForContractsDeployment
        [(ProbeResult.http true (Json.obj [("result", Json.str "0xabc")]), false)]).settled
      = some Outcome.success ∧
    (waitForContractsDeployment
        [(ProbeResult.http true (Json.obj [("result", Json.str "0xabc")]), false)]).settled
      ≠ some (Outcome.failure stoppedMessage) := by
  constructor
  · rfl
  · decide

/-- C2 (amended): if the environment-running check first reports false on
tick N (earlier ticks being quiet), the invocation terminates by tick N —
with the `EnvironmentStoppedUnexpectedly` failure provided the probe at
tick N was not classified successful; if the probe at tick N returned a
truthy `result`, the invocation instead resolves successfully on that
tick. -/
theorem C2_stop_failure_amended (pre : List (ProbeResult × Bool)) (p : ProbeResult)
    (rest : List (ProbeResult × Bool))
    (hpre : ∀ pe ∈ pre, probeSuccess pe.1 = false ∧ pe.2 = true) :
    (probeSuccess p = false →
      (waitForContractsDeployment (pre ++ (p, false) :: rest)).settled
        = some (Outcome.failure stoppedMessage) ∧
      (waitForContractsDeployment (pre ++ (p, false) :: rest)).elapsedTime
        = retryTime * (pre.length + 1)) ∧
    (probeSuccess p = true →
      (waitForContractsDeployment (pre ++ (p, false) :: rest)).settled
        = some Outcome.success) := by
  have hq := runPoll_quiet pre initState rfl hpre
  have hstep : waitForContractsDeployment (pre ++ (p, false) :: rest)
      = runPoll rest (tick p false (runPoll pre initState)) := by
    rw [waitForContractsDeployment, runPoll_append]
    rw [hq]
    simp [runPoll, initState]
  have hspend : (runPoll pre initState).settled = none := by rw [hq]; rfl
  constructor
  · intro hp
    obtain ⟨h1, h2⟩ := tick_stopFail p (runPoll pre initState) hspend hp
    rw [hstep, runPoll_cleared _ _ h2]
    refine ⟨h1, ?_⟩
    rw [tick_elapsed, hq]
    simp [initState]
    ring
  · intro hp
    obtain ⟨h1, h2⟩ := tick_success p false (runPoll pre initState) hspend hp
    rw [hstep, runPoll_cleared _ _ h2]
    exact h1

/-- C2 witness for the amended theorem: one quiet tick, then a tick with a
non-success HTTP probe on which the node reports stopped — the poll fails
with the stop message after two ticks. -/
theorem C2_stop_failure_amended_witness :
    (waitForContractsDeployment
        [(ProbeResult.transportError, true), (ProbeResult.http false Json.null, false)]).settled
      = some (Outcome.failure stoppedMessage) ∧
    (waitForContractsDeployment
        [(ProbeResult.transportError, true), (ProbeResult.http false Json.null, false)]).elapsedTime
      = retryTime * 2 :=
  (C2_stop_failure_amended [(ProbeResult.transportError, true)]
      (ProbeResult.http false Json.null) [] (by decide)).1 rfl

/-- C3: every invocation produces at most one terminal outcome, which is
stable (a settled promise never changes), and no outcome is observable
while polling is ongoing: the promise is settled exactly when the interval
has been cleared, i.e. exactly when polling has stopped. -/
theorem C3_single_outcome (ticks more : List (ProbeResult × Bool)) :
    ((waitForContractsDeployment ticks).intervalCleared = true ↔
      (waitForContractsDeployment ticks).settled ≠ none) ∧
    ((waitForContractsDeployment ticks).settled ≠ none →
      runPoll more (waitForContractsDeployment ticks)
        = waitForContractsDeployment ticks) := by
  have hinv := runPoll_inv ticks initState (by simp [initState])
  exact ⟨hinv, fun hne => runPoll_cleared more _ (hinv.mpr hne)⟩

/-- C3 witness: after a resolving tick the outcome is settled and a further
schedule of ticks leaves the state — outcome included — unchanged. -/
theorem C3_single_outcome_witness :
    (waitForContractsDeployment
        [(ProbeResult.http true (Json.obj [("result", Json.bool true)]), true)]).settled ≠ none ∧
    runPoll [(ProbeResult.transportError, false)]
        (waitForContractsDeployment
          [(ProbeResult.http true (Json.obj [("result", Json.bool true)]), true)])
      = waitForContractsDeployment
          [(ProbeResult.http true (Json.obj [("result", Json.bool true)]), true)] :=
  ⟨by decide,
   (C3_single_outcome
      [(ProbeResult.http true (Json.obj [("result", Json.bool true)]), true)]
      [(ProbeResult.transportError, false)]).2 (by decide)⟩

/-- C4: for every schedule whose first successful probe occurs at tick K
(all earlier ticks quiet with the node running), the poll has not resolved
before tick K, and resolves successfully on tick K with elapsed time
K × retryTime, whatever the rest of the schedule holds. -/
theorem C4_first_success (pre : List (ProbeResult × Bool)) (p : ProbeResult)
    (rest : List (ProbeResult × Bool))
    (hpre : ∀ pe ∈ pre, probeSuccess pe.1 = false ∧ pe.2 = true)
    (hp : probeSuccess p = true) :
    (waitForContractsDeployment pre).settled = none ∧
    (waitForContractsDeployment (pre ++ (p, true) :: rest)).settled
      = some Outcome.success ∧
    (waitForContractsDeployment (pre ++ (p, true) :: rest)).elapsedTime
      = retryTime * (pre.length + 1) := by
  have hq := runPoll_quiet pre initState rfl hpre
  have hspend : (runPoll pre initState).settled = none := by rw [hq]; rfl
  have hstep : waitForContractsDeployment (pre ++ (p, true) :: rest)
      = runPoll rest (tick p true (runPoll pre initState)) := by
    rw [waitForContractsDeployment, runPoll_append]
    rw [hq]
    simp [runPoll, initState]
  obtain ⟨h1, h2⟩ := tick_success p true (runPoll pre initState) hspend hp
  refine ⟨hspend, ?_, ?_⟩
  · rw [hstep, runPoll_cleared _ _ h2]
    exact h1
  · rw [hstep, runPoll_cleared _ _ h2, tick_elapsed, hq]
    simp [initState]
    ring

/-- C4 witness: non-ok probe, then falsy-result probe, then truthy-result
probe (the spec's scenario): pending after the two quiet ticks, success on
the third with 3 × retryTime elapsed. -/
theorem C4_first_success_witness :
    (waitForContractsDeployment
        [(ProbeResult.http false Json.null, true),
         (ProbeResult.http true (Json.obj [("result", Json.null)]), true)]).settled = none ∧
    (waitForContractsDeployment
        [(ProbeResult.http false Json.null, true),
         (ProbeResult.http true (Json.obj [("result", Json.null)]), true),
         (ProbeResult.http true (Json.obj [("result", Json.str "0xabc")]), true)]).settled
      = some Outcome.success ∧
    (waitForContractsDeployment
        [(ProbeResult.http false Json.null, true),
         (ProbeResult.http true (Json.obj [("result", Json.null)]), true),
         (ProbeResult.http true (Json.obj [("result", Json.str "0xabc")]), true)]).elapsedTime
      = retryTime * 3 :=
  C4_first_success
    [(ProbeResult.http false Json.null, true),
     (ProbeResult.http true (Json.obj [("result", Json.null)]), true)]
    (ProbeResult.http true (Json.obj [("result", Json.str "0xabc")])) []
    (by decide) (by decide)

/-- C8: `isRunning` is true iff at least one entry of the status snapshot
has `isRunning = true`, and is false on the empty snapshot. -/
theorem C8_isRunning_spec (snapshot : List ServiceStatus) :
    (isRunning snapshot = true ↔ ∃ c ∈ snapshot, c.isRunning = true) ∧
    isRunning [] = false := by
  refine ⟨?_, rfl⟩
  simp [isRunning, List.any_eq_true]

/-- C9: the probe request is a JSON-RPC 2.0 POST aimed at the L2 RPC URL
(path `/zks_getMainContract` under it), with method fixed to
`zks_getMainContract`, empty params and id 1. -/
theorem C9_probe_request_shape :
    (probeRequest l2RpcUrl).httpMethod = "POST" ∧
    (probeRequest l2RpcUrl).contentType = "application/json" ∧
    (probeRequest l2RpcUrl).jsonrpc = "2.0" ∧
    (probeRequest l2RpcUrl).rpcMethod = "zks_getMainContract" ∧
    (probeRequest l2RpcUrl).params = [] ∧
    (probeRequest l2RpcUrl).id = 1 ∧
    (probeRequest l2RpcUrl).url = l2RpcUrl ++ "/zks_getMainContract" ∧
    l2RpcUrl = "http://localhost:3050" :=
  ⟨rfl, rfl, rfl, rfl, rfl, rfl, rfl, rfl⟩

/-! ### Helper lemmas about `getLatestVersion`, `install` and the config -/

/-- `getLatestVersion` never touches the persisted `moduleConfig`. -/
theorem getLatestVersion_config (resolver : Nat → Except String String)
    (s : ProcState) :
    ((getLatestVersion resolver s).2).moduleConfig = s.moduleConfig := by
  unfold getLatestVersion
  split
  · rfl
  · split <;> rfl

/-- Unfolding `getLatestVersion` when the memo is truthy: the cached value
is returned and nothing changes. -/
theorem getLatestVersion_eq_pos (resolver : Nat → Except String String)
    (s : ProcState) (h : strTruthy s.latestVersion = true) :
    getLatestVersion resolver s = (Except.ok (s.latestVersion.getD ""), s) := by
  unfold getLatestVersion
  rw [if_pos h]

/-- Unfolding `getLatestVersion` when the memo is falsy and the resolver
query succeeds: the result is stored and returned. -/
theorem getLatestVersion_eq_neg_ok (resolver : Nat → Except String String)
    (s : ProcState) (w : String) (h : strTruthy s.latestVersion = false)
    (hres : resolver s.queries = Except.ok w) :
    getLatestVersion resolver s
      = (Except.ok w, { s with latestVersion := some w, queries := s.queries + 1 }) := by
  unfold getLatestVersion
  rw [if_neg (by simp [h]), hres]

/-- Unfolding `getLatestVersion` when the memo is falsy and the resolver
query fails: the error propagates and the memo stays unassigned. -/
theorem getLatestVersion_eq_neg_err (resolver : Nat → Except String String)
    (s : ProcState) (e : String) (h : strTruthy s.latestVersion = false)
    (hres : resolver s.queries = Except.error e) :
    getLatestVersion resolver s = (Except.error e, { s with queries := s.queries + 1 }) := by
  unfold getLatestVersion
  rw [if_neg (by simp [h]), hres]

/-- When the memo already holds a JS-truthy (non-empty) version, a call to
`getLatestVersion` returns it and leaves the state untouched — in
particular no resolver query is made. -/
theorem getLatestVersion_cached (resolver : Nat → Except String String)
    (s : ProcState) (v : String) (hsv : s.latestVersion = some v)
    (hne : v ≠ "") :
    getLatestVersion resolver s = (Except.ok v, s) := by
  have h : strTruthy s.latestVersion = true := by
    rw [hsv]
    simpa [strTruthy] using hne
  rw [getLatestVersion_eq_pos resolver s h, hsv]
  rfl

/-- A `getLatestVersion` call returning a non-empty version leaves that
version in the memo. -/
theorem getLatestVersion_stores (resolver : Nat → Except String String)
    (s : ProcState) (v : String)
    (hv : (getLatestVersion resolver s).1 = Except.ok v) :
    ((getLatestVersion resolver s).2).latestVersion = some v := by
  by_cases h : strTruthy s.latestVersion = true
  · rw [getLatestVersion_eq_pos resolver s h] at hv ⊢
    cases hsv : s.latestVersion with
    | none => rw [hsv] at h; simp [strTruthy] at h
    | some w =>
      rw [hsv] at hv
      simp at hv
      simp [hv]
  · have h' : strTruthy s.latestVersion = false := Bool.eq_false_iff.mpr h
    cases hres : resolver s.queries with
    | ok w =>
      rw [getLatestVersion_eq_neg_ok resolver s w h' hres] at hv ⊢
      simp at hv
      simp [hv]
    | error e =>
      rw [getLatestVersion_eq_neg_err resolver s e h' hres] at hv
      simp at hv

/-- Field lookup on a cons cell: the head is consulted first. -/
theorem lookupField_cons (a : String × Json) (t : List (String × Json))
    (k : String) :
    lookupField (a :: t) k = if a.1 == k then some a.2 else lookupField t k := by
  simp only [lookupField, List.find?_cons]
  cases h : (a.1 == k) <;> simp [h]

/-- Looking up a key other than `version` is unchanged by the value-override
half of the spread (`version` present in the object). -/
theorem lookupField_map_other (cfg : List (String × Json)) (v : String)
    (k : String) (hk : k ≠ "version") :
    lookupField (cfg.map (fun p => if p.1 == "version" then (p.1, Json.str v) else p)) k
      = lookupField cfg k := by
  induction cfg with
  | nil => rfl
  | cons a t ih =>
    obtain ⟨ak, av⟩ := a
    rw [List.map_cons]
    by_cases hav : ak = "version"
    · subst hav
      have hne : ("version" == k) = false := by simp [Ne.symm hk]
      simp only [beq_self_eq_true, if_true]
      rw [lookupField_cons, lookupField_cons]
      simp only [hne]
      simpa using ih
    · have hbeq : (ak == "version") = false := by simp [hav]
      simp only [hbeq]
      rw [if_neg (by simp), lookupField_cons, lookupField_cons]
      by_cases hk2 : (ak == k) = true
      · simp [hk2]
      · have hk2' : (ak == k) = false := by simpa using hk2
        simp only [hk2']
        simpa using ih

/-- Looking up a key other than `version` is unchanged by the append half of
the spread (`version` absent from the object). -/
theorem lookupField_append_other (cfg : List (String × Json)) (v : String)
    (k : String) (hk : k ≠ "version") :
    lookupField (cfg ++ [("version", Json.str v)]) k = lookupField cfg k := by
  induction cfg with
  | nil =>
    have hne : ("version" == k) = false := by simp [Ne.symm hk]
    rw [List.nil_append, lookupField_cons]
    simp [hne, lookupField]
  | cons a t ih =>
    rw [List.cons_append, lookupField_cons, lookupField_cons]
    by_cases hk2 : (a.1 == k) = true
    · simp [hk2]
    · have hk2' : (a.1 == k) = false := by simpa using hk2
      simp only [hk2']
      simpa using ih

/-- After the override half of the spread, `version` maps to the new value. -/
theorem lookupField_map_version (cfg : List (String × Json)) (v : String)
    (hany : cfg.any (fun p => p.1 == "version") = true) :
    lookupField (cfg.map (fun p => if p.1 == "version" then (p.1, Json.str v) else p))
        "version" = some (Json.str v) := by
  induction cfg with
  | nil => simp at hany
  | cons a t ih =>
    obtain ⟨ak, av⟩ := a
    rw [List.map_cons]
    by_cases hav : ak = "version"
    · subst hav
      simp only [beq_self_eq_true, if_true]
      rw [lookupField_cons]
      simp
    · have hbeq : (ak == "version") = false := by simp [hav]
      have ht : t.any (fun p => p.1 == "version") = true := by
        simpa [List.any_cons, hbeq] using hany
      simp only [hbeq]
      rw [if_neg (by simp), lookupField_cons]
      simp only [hbeq]
      simpa using ih ht

/-- After the append half of the spread, `version` maps to the new value. -/
theorem lookupField_append_version (cfg : List (String × Json)) (v : String)
    (hany : cfg.any (fun p => p.1 == "version") = false) :
    lookupField (cfg ++ [("version", Json.str v)]) "version"
      = some (Json.str v) := by
  induction cfg with
  | nil =>
    rw [List.nil_append, lookupField_cons]
    simp
  | cons a t ih =>
    obtain ⟨ak, av⟩ := a
    have hbeq : (ak == "version") = false := by
      by_contra hb
      simp only [Bool.not_eq_false] at hb
      simp [List.any_cons, hb] at hany
    have ht : t.any (fun p => p.1 == "version") = false := by
      simpa [List.any_cons, hbeq] using hany
    rw [List.cons_append, lookupField_cons]
    simp only [hbeq]
    simpa using ih ht

/-- The spread `{...cfg, version: v}` maps `version` to the new value. -/
theorem lookupField_spread_version (cfg : List (String × Json)) (v : String) :
    lookupField (spreadSetVersion cfg v) "version" = some (Json.str v) := by
  unfold spreadSetVersion
  by_cases hany : cfg.any (fun p => p.1 == "version") = true
  · rw [if_pos hany]
    exact lookupField_map_version cfg v hany
  · rw [if_neg hany]
    exact lookupField_append_version cfg v (Bool.eq_false_iff.mpr hany)

/-- The spread `{...cfg, version: v}` leaves every other key unchanged. -/
theorem lookupField_spread_other (cfg : List (String × Json)) (v : String)
    (k : String) (hk : k ≠ "version") :
    lookupField (spreadSetVersion cfg v) k = lookupField cfg k := by
  unfold spreadSetVersion
  by_cases hany : cfg.any (fun p => p.1 == "version") = true
  · rw [if_pos hany]
    exact lookupField_map_other cfg v k hk
  · rw [if_neg hany]
    exact lookupField_append_other cfg v k hk

/-- `install` when the version resolution fails: only the resolve stage ran. -/
theorem install_eq_resolveFail (env : InstallEnv) (s : ProcState) (e : String)
    (hgl : (getLatestVersion env.resolver s).1 = Except.error e) :
    install env s
      = (Except.error e, (getLatestVersion env.resolver s).2, [Stage.resolveStage]) := by
  unfold install
  rcases h : getLatestVersion env.resolver s with ⟨r, s1⟩
  rw [h] at hgl
  rcases r with e0 | latest
  · simp at hgl
    subst hgl
    rfl
  · simp at hgl

/-- `install` when cloning fails: resolve and clone ran, nothing later. -/
theorem install_eq_cloneFail (env : InstallEnv) (s : ProcState)
    (latest e : String)
    (hgl : (getLatestVersion env.resolver s).1 = Except.ok latest)
    (hc : env.cloneResult = Except.error e) :
    install env s
      = (Except.error e, (getLatestVersion env.resolver s).2,
         [Stage.resolveStage, Stage.cloneStage]) := by
  unfold install
  rcases h : getLatestVersion env.resolver s with ⟨r, s1⟩
  rw [h] at hgl
  rcases r with e0 | latest0
  · simp at hgl
  · rw [hc]

/-- `install` when `docker.compose.up` fails: the poller never ran. -/
theorem install_eq_upFail (env : InstallEnv) (s : ProcState)
    (latest e : String)
    (hgl : (getLatestVersion env.resolver s).1 = Except.ok latest)
    (hc : env.cloneResult = Except.ok ())
    (hu : env.upResult = Except.error e) :
    install env s
      = (Except.error e, (getLatestVersion env.resolver s).2,
         [Stage.resolveStage, Stage.cloneStage, Stage.upStage]) := by
  unfold install
  rcases h : getLatestVersion env.resolver s with ⟨r, s1⟩
  rw [h] at hgl
  rcases r with e0 | latest0
  · simp at hgl
  · rw [hc, hu]

/-- `install` when the readiness poll rejects: the version was never
persisted. -/
theorem install_eq_pollFail (env : InstallEnv) (s : ProcState)
    (latest e : String)
    (hgl : (getLatestVersion env.resolver s).1 = Except.ok latest)
    (hc : env.cloneResult = Except.ok ())
    (hu : env.upResult = Except.ok ())
    (hp : env.pollResult = Except.error e) :
    install env s
      = (Except.error e, (getLatestVersion env.resolver s).2,
         [Stage.resolveStage, Stage.cloneStage, Stage.upStage, Stage.pollStage]) := by
  unfold install
  rcases h : getLatestVersion env.resolver s with ⟨r, s1⟩
  rw [h] at hgl
  rcases r with e0 | latest0
  · simp at hgl
  · rw [hc, hu, hp]

/-- `install` when every stage succeeds: the resolved version is spread into
the persisted config. -/
theorem install_eq_ok (env : InstallEnv) (s : ProcState) (latest : String)
    (hgl : (getLatestVersion env.resolver s).1 = Except.ok latest)
    (hc : env.cloneResult = Except.ok ())
    (hu : env.upResult = Except.ok ())
    (hp : env.pollResult = Except.ok ()) :
    install env s
      = (Except.ok (),
         { (getLatestVersion env.resolver s).2 with
             moduleConfig :=
               spreadSetVersion ((getLatestVersion env.resolver s).2).moduleConfig latest },
         [Stage.resolveStage, Stage.cloneStage, Stage.upStage, Stage.pollStage,
          Stage.persistStage]) := by
  unfold install
  rcases h : getLatestVersion env.resolver s with ⟨r, s1⟩
  rw [h] at hgl
  rcases r with e0 | latest0
  · simp at hgl
  · simp at hgl
    subst hgl
    rw [hc, hu, hp]

/-- The stage trace of any `install` run is one of five prefixes of the full
stage sequence. -/
theorem install_trace_cases (env : InstallEnv) (s : ProcState) :
    (install env s).2.2 = [Stage.resolveStage] ∨
    (install env s).2.2 = [Stage.resolveStage, Stage.cloneStage] ∨
    (install env s).2.2 = [Stage.resolveStage, Stage.cloneStage, Stage.upStage] ∨
    (install env s).2.2
      = [Stage.resolveStage, Stage.cloneStage, Stage.upStage, Stage.pollStage] ∨
    (install env s).2.2
      = [Stage.resolveStage, Stage.cloneStage, Stage.upStage, Stage.pollStage,
         Stage.persistStage] := by
  rcases hgl : (getLatestVersion env.resolver s).1 with e0 | latest
  · rw [install_eq_resolveFail env s e0 hgl]
    exact Or.inl rfl
  · rcases hc : env.cloneResult with ec | uc
    · rw [install_eq_cloneFail env s latest ec hgl hc]
      exact Or.inr (Or.inl rfl)
    · have hc' : env.cloneResult = Except.ok () := hc
      rcases hu : env.upResult with eu | uu
      · rw [install_eq_upFail env s latest eu hgl hc' hu]
        exact Or.inr (Or.inr (Or.inl rfl))
      · have hu' : env.upResult = Except.ok () := hu
        rcases hp : env.pollResult with ep | up
        · rw [install_eq_pollFail env s latest ep hgl hc' hu' hp]
          exact Or.inr (Or.inr (Or.inr (Or.inl rfl)))
        · have hp' : env.pollResult = Except.ok () := hp
          rw [install_eq_ok env s latest hgl hc' hu' hp']
          exact Or.inr (Or.inr (Or.inr (Or.inr rfl)))

/-- C5: the persisted version field is updated iff the install run completes
with the readiness poll succeeding — on success the resolved latest revision
is spread into the config, and on any failure (resolve, clone, compose up,
or poll) the persisted config is left exactly as it was. -/
theorem C5_version_persisted_iff_success (env : InstallEnv) (s : ProcState) :
    ((install env s).1 = Except.ok () →
      env.pollResult = Except.ok () ∧
      ∃ v, (getLatestVersion env.resolver s).1 = Except.ok v ∧
        ((install env s).2.1).moduleConfig = spreadSetVersion s.moduleConfig v) ∧
    ((install env s).1 ≠ Except.ok () →
      ((install env s).2.1).moduleConfig = s.moduleConfig) := by
  have hcfg := getLatestVersion_config env.resolver s
  rcases hgl : (getLatestVersion env.resolver s).1 with e0 | latest
  · rw [install_eq_resolveFail env s e0 hgl]
    exact ⟨fun h => by simp at h, fun _ => hcfg⟩
  · rcases hc : env.cloneResult with ec | uc
    · rw [install_eq_cloneFail env s latest ec hgl hc]
      exact ⟨fun h => by simp at h, fun _ => hcfg⟩
    · have hc' : env.cloneResult = Except.ok () := hc
      rcases hu : env.upResult with eu | uu
      · rw [install_eq_upFail env s latest eu hgl hc' hu]
        exact ⟨fun h => by simp at h, fun _ => hcfg⟩
      · have hu' : env.upResult = Except.ok () := hu
        rcases hp : env.pollResult with ep | up
        · rw [install_eq_pollFail env s latest ep hgl hc' hu' hp]
          exact ⟨fun h => by simp at h, fun _ => hcfg⟩
        · have hp' : env.pollResult = Except.ok () := hp
          rw [install_eq_ok env s latest hgl hc' hu' hp']
          constructor
          · intro _
            exact ⟨rfl, latest, rfl, by simp [hcfg]⟩
          · intro h
            exact absurd rfl h

/-- C5 witness: on an all-succeeding run the config gains exactly the
resolved version, and on a run whose poll rejects the config is unchanged. -/
theorem C5_version_persisted_iff_success_witness :
    (envAllOk.pollResult = Except.ok () ∧
      ∃ v, (getLatestVersion envAllOk.resolver procWithOther).1 = Except.ok v ∧
        ((install envAllOk procWithOther).2.1).moduleConfig
          = spreadSetVersion procWithOther.moduleConfig v) ∧
    ((install envPollFail procWithOther).2.1).moduleConfig
      = procWithOther.moduleConfig :=
  ⟨(C5_version_persisted_iff_success envAllOk procWithOther).1 rfl,
   (C5_version_persisted_iff_success envPollFail procWithOther).2
     (fun h => Except.noConfusion h)⟩

/-- C6: a failure of the source fetch (`cloneRepo`) or of the container
bring-up (`compose up`) aborts the install sequence with that error before
the readiness poller ever starts; every stage error is returned to the
caller unmodified; and no stage is attempted more than once — only the
probe inside the poller retries. -/
theorem C6_failure_propagation (env : InstallEnv) (s : ProcState) :
    (∀ e, (getLatestVersion env.resolver s).1 = Except.error e →
      (install env s).1 = Except.error e ∧
      Stage.pollStage ∉ (install env s).2.2 ∧
      Stage.persistStage ∉ (install env s).2.2) ∧
    (∀ latest e, (getLatestVersion env.resolver s).1 = Except.ok latest →
      env.cloneResult = Except.error e →
      (install env s).1 = Except.error e ∧
      Stage.pollStage ∉ (install env s).2.2 ∧
      Stage.persistStage ∉ (install env s).2.2) ∧
    (∀ latest e, (getLatestVersion env.resolver s).1 = Except.ok latest →
      env.cloneResult = Except.ok () → env.upResult = Except.error e →
      (install env s).1 = Except.error e ∧
      Stage.pollStage ∉ (install env s).2.2 ∧
      Stage.persistStage ∉ (install env s).2.2) ∧
    (∀ latest e, (getLatestVersion env.resolver s).1 = Except.ok latest →
      env.cloneResult = Except.ok () → env.upResult = Except.ok () →
      env.pollResult = Except.error e →
      (install env s).1 = Except.error e) ∧
    (∀ st : Stage, ((install env s).2.2).count st ≤ 1) := by
  refine ⟨?_, ?_, ?_, ?_, ?_⟩
  · intro e hgl
    rw [install_eq_resolveFail env s e hgl]
    exact ⟨rfl, by simp, by simp⟩
  · intro latest e hgl hc
    rw [install_eq_cloneFail env s latest e hgl hc]
    exact ⟨rfl, by simp, by simp⟩
  · intro latest e hgl hc hu
    rw [install_eq_upFail env s latest e hgl hc hu]
    exact ⟨rfl, by simp, by simp⟩
  · intro latest e hgl hc hu hp
    rw [install_eq_pollFail env s latest e hgl hc hu hp]
  · intro st
    rcases install_trace_cases env s with h | h | h | h | h <;> rw [h] <;>
      cases st <;> decide

/-- C6 witness: with a failing clone the install returns that clone error
verbatim and the poll and persist stages never ran. -/
theorem C6_failure_propagation_witness :
    (install envCloneFail procWithOther).1
      = Except.error "fatal: unable to access repo" ∧
    Stage.pollStage ∉ (install envCloneFail procWithOther).2.2 ∧
    Stage.persistStage ∉ (install envCloneFail procWithOther).2.2 :=
  (C6_failure_propagation envCloneFail procWithOther).2.1 "deadbeef"
    "fatal: unable to access repo" rfl rfl

/-- C7 counterexample: the claim that the resolver is queried at most once
per process fails when the resolver yields the empty string — the guard
`if (!latestVersion)` treats the cached `""` as falsy, so a first
SUCCESSFUL call stores `""` and a second call queries the resolver again
(query count reaches 2). -/
theorem C7_memoization_counterexample :
    (getLatestVersion (fun _ => Except.ok "") initProcState).1 = Except.ok "" ∧
    ((getLatestVersion (fun _ => Except.ok "") initProcState).2).queries = 1 ∧
    ((getLatestVersion (fun _ => Except.ok "")
        ((getLatestVersion (fun _ => Except.ok "") initProcState).2)).2).queries = 2 :=
  ⟨rfl, rfl, rfl⟩

/-- C7 (amended): provided the resolved revision is a non-empty (JS-truthy)
string, the lookup is performed at most once per process: a successful
`getLatestVersion` call stores the revision in the process-wide memo, and
every subsequent call — whatever the resolver would now answer — returns
the cached value with the state (query count included) unchanged. -/
theorem C7_memoization_amended (resolver r2 : Nat → Except String String)
    (s : ProcState) (v : String)
    (hv : (getLatestVersion resolver s).1 = Except.ok v) (hne : v ≠ "") :
    ((getLatestVersion resolver s).2).latestVersion = some v ∧
    getLatestVersion r2 ((getLatestVersion resolver s).2)
      = (Except.ok v, (getLatestVersion resolver s).2) := by
  have h1 := getLatestVersion_stores resolver s v hv
  exact ⟨h1, getLatestVersion_cached r2 _ v h1 hne⟩

/-- C7 witness: after resolving "deadbeef" once, a second call returns it
from the memo even against a resolver that would now fail. -/
theorem C7_memoization_amended_witness :
    ((getLatestVersion okResolver initProcState).2).latestVersion
      = some "deadbeef" ∧
    getLatestVersion (fun _ => Except.error "network down")
        ((getLatestVersion okResolver initProcState).2)
      = (Except.ok "deadbeef", (getLatestVersion okResolver initProcState).2) :=
  C7_memoization_amended okResolver (fun _ => Except.error "network down")
    initProcState "deadbeef" rfl (by decide)

/-- C10: when `install` succeeds and persists the version, every field of
the persisted config other than `version` is unchanged, and `version` holds
the resolved revision — the new config is the old one with only the
`version` field replaced. -/
theorem C10_config_frame (env : InstallEnv) (s : ProcState) (k : String)
    (hk : k ≠ "version") (hok : (install env s).1 = Except.ok ()) :
    lookupField ((install env s).2.1).moduleConfig k
      = lookupField s.moduleConfig k ∧
    ∃ v, (getLatestVersion env.resolver s).1 = Except.ok v ∧
      lookupField ((install env s).2.1).moduleConfig "version"
        = some (Json.str v) := by
  have hcfg := getLatestVersion_config env.resolver s
  rcases hgl : (getLatestVersion env.resolver s).1 with e0 | latest
  · rw [install_eq_resolveFail env s e0 hgl] at hok
    simp at hok
  · rcases hc : env.cloneResult with ec | uc
    · rw [install_eq_cloneFail env s latest ec hgl hc] at hok
      simp at hok
    · have hc' : env.cloneResult = Except.ok () := hc
      rcases hu : env.upResult with eu | uu
      · rw [install_eq_upFail env s latest eu hgl hc' hu] at hok
        simp at hok
      · have hu' : env.upResult = Except.ok () := hu
        rcases hp : env.pollResult with ep | up
        · rw [install_eq_pollFail env s latest ep hgl hc' hu' hp] at hok
          simp at hok
        · have hp' : env.pollResult = Except.ok () := hp
          rw [install_eq_ok env s latest hgl hc' hu' hp']
          constructor
          · show lookupField
                (spreadSetVersion ((getLatestVersion env.resolver s).2).moduleConfig latest) k
              = lookupField s.moduleConfig k
            rw [hcfg]
            exact lookupField_spread_other s.moduleConfig latest k hk
          · refine ⟨latest, rfl, ?_⟩
            show lookupField
                (spreadSetVersion ((getLatestVersion env.resolver s).2).moduleConfig latest)
                "version" = some (Json.str latest)
            exact lookupField_spread_version _ latest

/-- C10 witness: a successful install over a config holding a `chainId`
field keeps that field and sets `version` to the resolved revision. -/
theorem C10_config_frame_witness :
    lookupField ((install envAllOk procWithOther).2.1).moduleConfig "chainId"
      = lookupField procWithOther.moduleConfig "chainId" ∧
    ∃ v, (getLatestVersion envAllOk.resolver procWithOther).1 = Except.ok v ∧
      lookupField ((install envAllOk procWithOther).2.1).moduleConfig "version"
        = some (Json.str v) :=
  C10_config_frame envAllOk procWithOther "chainId" (by decide) rfl
